import Mathlib

/-!
Verification development for a MariaDB backup tool (`backup.py`).

The tool's core is shallowly embedded here:
* a host's backup directory is a `List FileInfo` (name, mtime, size);
  filesystem operations become pure list transformations;
* the dump pipeline (`run_backup`) is driven by an oracle `DumpEnv`
  describing how the external producer/compressor processes behave and
  which `unlink` calls fail;
* Python exceptions become explicit `Option String` error results that
  abort the surrounding control flow exactly where the exception would;
* wall-clock instants are minutes since an epoch (`Nat`), with days of
  1440 minutes.

Simplifications, stated once: file names never contain `/`; `int(...)`
applied to the trailing file-name segment is modelled as decimal-digit
parsing (Python additionally accepts surrounding whitespace, a sign and
underscore separators, which do not occur in the names the tool itself
produces); database names are treated as glob-metacharacter-free
literals; notification templates are abstracted to the event level
(success, or failure with a reason), matching the spec's notification
sink interface.
-/

/-- One directory entry: file name, modification time, size in bytes. -/
structure FileInfo where
  name : String
  mtime : Nat
  size : Nat
deriving DecidableEq

/-- Resolved retention policy: `keep_last` and the byte bound
(`max_gb * 1024^3` in the source, already resolved to bytes here). -/
structure RetentionPolicy where
  keepLast : Nat
  maxBytes : Nat
deriving DecidableEq

/-- Strip a literal character-list from the front of a list:
`some rest` on success, `none` if the literal does not match. -/
def dropLit : List Char → List Char → Option (List Char)
  | [], rest => some rest
  | _ :: _, [] => none
  | p :: ps, c :: cs => if p = c then dropLit ps cs else none

/-- Python's `str.split(sep)` for a one-character separator, over char
lists (structural, so that closed terms evaluate in the kernel). -/
def splitOnChar (sep : Char) : List Char → List (List Char)
  | [] => [[]]
  | c :: cs =>
    if c = sep then [] :: splitOnChar sep cs
    else match splitOnChar sep cs with
      | [] => [[c]]
      | h :: t => (c :: h) :: t

/-- Tail of a decimal-digit parse: accumulate digits, fail on any
non-digit. -/
def parseNatAux : List Char → Nat → Option Nat
  | [], acc => some acc
  | c :: cs, acc => if c.isDigit then parseNatAux cs (acc * 10 + (c.toNat - 48)) else none

/-- Parse a non-empty all-digit character list as a decimal number. -/
def parseNatDigits (cs : List Char) : Option Nat :=
  if cs.isEmpty then none else parseNatAux cs 0

/-- Glob `<db>-<date>-*.sql.gz` used by the sequencer
(`glob.glob(str(db_backup_dir / f"db-date-*.sql.gz"))`):
the literal head `db-date-`, then anything, then the `.sql.gz` tail. -/
def seqGlobMatch (db date : String) (name : String) : Bool :=
  match dropLit (db ++ "-" ++ date ++ "-").toList name.toList with
  | none => false
  | some rest => ".sql.gz".toList.isSuffixOf rest

/-- Glob `<db>-[0-9][0-9]-[0-9][0-9]-[0-9][0-9][0-9][0-9]-*.sql.gz`
used by the retention engine: literal `db-`, a DD-MM-YYYY digit block,
`-`, anything, `.sql.gz`. -/
def retGlobMatch (db : String) (name : String) : Bool :=
  match dropLit (db ++ "-").toList name.toList with
  | some (d1 :: d2 :: h1 :: d3 :: d4 :: h2 :: d5 :: d6 :: d7 :: d8 :: h3 :: rest) =>
      d1.isDigit && d2.isDigit && (h1 == '-') &&
      d3.isDigit && d4.isDigit && (h2 == '-') &&
      d5.isDigit && d6.isDigit && d7.isDigit && d8.isDigit && (h3 == '-') &&
      ".sql.gz".toList.isSuffixOf rest
  | _ => false

/-- `Path(b).name.split("-")[-1].split(".")[0]` fed to `int(...)`:
take the segment after the last `-`, cut it at the first `.`, and parse
it as a decimal number; `none` models the caught `ValueError`. -/
def parseTrailing (name : String) : Option Nat :=
  parseNatDigits (((splitOnChar '.' ((splitOnChar '-' name.toList).getLastD []))).headD [])

/-- Sequencer (`run_backup`, lines 131-146): `n = 1`; if files matching
`db-date-*.sql.gz` exist, collect the integers their trailing segments
parse to, and when any parse, `n = max(nums) + 1`. -/
def nextSeq (names : List String) (db date : String) : Nat :=
  let existing := names.filter (seqGlobMatch db date)
  if existing.isEmpty then 1
  else
    let nums := existing.filterMap parseTrailing
    match nums.max? with
    | some m => m + 1
    | none => 1

/-- Spec-side view of the sequencer's input: the trailing integers of
the files that match the date-qualified pattern, malformed segments
dropped. -/
def parsedNums (names : List String) (db date : String) : List Nat :=
  (names.filter (seqGlobMatch db date)).filterMap parseTrailing

/-- Delete a file by name: `f.unlink()` on the directory model. -/
def removeName (dir : List FileInfo) (n : String) : List FileInfo :=
  dir.filter (fun f => !(f.name == n))

/-- Delete a batch of files by name (used to describe the state after a
run of successful `unlink` calls). -/
def removeNames (dir : List FileInfo) (ns : List String) : List FileInfo :=
  dir.filter (fun f => !(ns.contains f.name))

/-- Ordering used by `sorted(..., key=os.path.getmtime, reverse=True)`:
`a` comes no later than `b` when `a` is at least as new. -/
def newerEq (a b : FileInfo) : Prop := b.mtime ≤ a.mtime

instance : DecidableRel newerEq := fun a b => Nat.decLe b.mtime a.mtime

instance : IsTotal FileInfo newerEq := ⟨fun a b => Nat.le_total b.mtime a.mtime⟩

instance : IsTrans FileInfo newerEq := ⟨fun _ _ _ h1 h2 => Nat.le_trans h2 h1⟩

/-- The `sorted(..., key=os.path.getmtime, reverse=True)` call: newest
(largest mtime) first, stable like Python's sort. -/
def sortDesc (l : List FileInfo) : List FileInfo :=
  l.insertionSort newerEq

/-- The retention engine's view of the directory: the files matching the
date-qualified glob for `db` (`db_backup_dir.glob(...)`). -/
def matchingBackups (dir : List FileInfo) (db : String) : List FileInfo :=
  dir.filter (fun f => retGlobMatch db f.name)

/-- `sum(f.stat().st_size for f in backups)`. -/
def sumSizes (l : List FileInfo) : Nat :=
  (l.map (fun f => f.size)).sum

/-- Names scheduled for deletion by the count rule:
`to_delete = backups[keep_last:]` of the newest-first sorted listing. -/
def doomedNames (dir : List FileInfo) (db : String) (keepLast : Nat) : List String :=
  ((sortDesc (matchingBackups dir db)).drop keepLast).map (fun f => f.name)

/-- The count-rule deletion loop `for f in to_delete: f.unlink()`.
`fails` says which `unlink` calls raise; the first failure aborts the
loop (there is no `try` around it in the source) and surfaces as the
exception text. -/
def deleteSeq (fails : String → Bool) : List FileInfo → List String → List FileInfo × Option String
  | dir, [] => (dir, none)
  | dir, n :: ns =>
    if fails n then (dir, some ("unlink failed: " ++ n))
    else deleteSeq fails (removeName dir n) ns

/-- The size-rule loop `while total_size > max_bytes and backups`,
walking the candidates oldest-first (`backups.pop()` takes the oldest of
the newest-first list); a failing `unlink` aborts with the exception. -/
def sizeLoopRev (fails : String → Bool) (maxB : Nat) : List FileInfo → Nat → List FileInfo → List FileInfo × Option String
  | [], _, dir => (dir, none)
  | f :: rest, total, dir =>
    if total ≤ maxB then (dir, none)
    else if fails f.name then (dir, some ("unlink failed: " ++ f.name))
    else sizeLoopRev fails maxB rest (total - f.size) (removeName dir f.name)

/-- `apply_retention` (lines 48-95) over one host directory, with the
fallible-`unlink` oracle. List the matching backups newest first, delete
everything past `keep_last`, re-list, then prune oldest-first while the
total size exceeds the byte bound. The early return for a missing host
directory is the empty-list case. A raised exception aborts the pass and
is returned alongside the directory state reached so far. -/
def applyRetentionF (fails : String → Bool) (policy : RetentionPolicy) (db : String) (dir : List FileInfo) : List FileInfo × Option String :=
  match deleteSeq fails dir (doomedNames dir db policy.keepLast) with
  | (dir1, some e) => (dir1, some e)
  | (dir1, none) =>
    let backups2 := sortDesc (matchingBackups dir1 db)
    sizeLoopRev fails policy.maxBytes backups2.reverse (sumSizes backups2) dir1

/-- `apply_retention` when every `unlink` succeeds (the normal pass). -/
def applyRetention (policy : RetentionPolicy) (db : String) (dir : List FileInfo) : List FileInfo :=
  (applyRetentionF (fun _ => false) policy db dir).1

/-- One notification event handed to the notification sink
(`send_discord_notification`): the success template or the failure
template with the exception text. Delivery itself is fire-and-forget
and out of scope (the sink swallows its own errors). -/
inductive NotifyEvent where
  | success
  | failure (reason : String)
deriving DecidableEq

/-- What `p1.communicate(timeout=timeout)` observes about the producer
process: a `subprocess.TimeoutExpired`, or an exit with a return code
and captured stderr text. -/
inductive ProducerResult where
  | timedOut
  | exited (rc : Int) (stderrText : String)
deriving DecidableEq

/-- Oracle for one dump-pipeline run: how the external processes behave,
the attributes the destination file ends up with, and which `unlink`
calls raise. -/
structure DumpEnv where
  producer : ProducerResult
  gzipRc : Int
  newMtime : Nat
  newSize : Nat
  unlinkFails : String → Bool

/-- Observable outcome of one `run_backup` invocation: the notification
events emitted in order, the final directory, the exception text caught
by the `except` handler (`none` when no exception reached it), and
whether each process was forcibly killed. -/
structure RunResult where
  events : List NotifyEvent
  dir : List FileInfo
  caught : Option String
  killedProducer : Bool
  killedConsumer : Bool
deriving DecidableEq

/-- Literal-head match of a character list against another. -/
def headMatches : List Char → List Char → Bool
  | [], _ => true
  | _ :: _, [] => false
  | a :: as, b :: bs => (a == b) && headMatches as bs

/-- Contiguous-substring test, modelling Python's `needle in hay`. -/
def containsSeg (needle : List Char) : List Char → Bool
  | [] => needle.isEmpty
  | c :: cs => headMatches needle (c :: cs) || containsSeg needle cs

/-- The marker `run_backup` looks for to detect a missing producer
binary (the source also quotes the binary name in the needle; the
quotes are immaterial to every claim and omitted here). -/
def errnoNeedle : String := "[Errno 2] No such file or directory: mariadb-dump"

/-- Remediation hint substituted for the raw FileNotFoundError text. -/
def toolMissingMsg : String :=
  "mariadb-dump not found. Please install mariadb-client or configure to use docker exec."

/-- The `except` handler's rewrite of the exception text. It is applied
here only to producer stderr, the one exception source that can contain
the needle; the model's other exception strings (timeout, compression,
unlink) never do, so rewriting them would be the identity. -/
def rewriteError (e : String) : String :=
  if containsSeg errnoNeedle.toList e.toList then toolMissingMsg else e

/-- The timeout exception text
(`Backup process timed out after {timeout} seconds.`). -/
def timeoutMsg (timeout : Nat) : String :=
  "Backup process timed out after " ++ toString timeout ++ " seconds."

/-- Destination file name chosen by `run_backup`:
`<db>-<date>-<n>.sql.gz` with `n` from the sequencer. -/
def backupFilename (dir : List FileInfo) (db date : String) : String :=
  db ++ "-" ++ date ++ "-" ++ toString (nextSeq (dir.map (fun f => f.name)) db date) ++ ".sql.gz"

/-- `run_backup` (lines 126-205). The destination is created by
`open(filepath, "wb")` (truncating any same-named file), then:
timeout kills both processes and raises; a non-zero producer exit
raises its stderr (rewritten when the binary is missing); a non-zero
compressor exit raises `Compression failed.`; otherwise the success
notification is sent and `apply_retention` runs — still inside the
`try`, so a retention exception falls into the same `except` handler,
which prints the failure, sends the failure notification, and deletes
the destination file if it still exists. -/
def runBackup (env : DumpEnv) (timeout : Nat) (policy : RetentionPolicy) (db date : String) (dir : List FileInfo) : RunResult :=
  let filename := backupFilename dir db date
  let dir1 := removeName dir filename ++ [⟨filename, env.newMtime, env.newSize⟩]
  match env.producer with
  | ProducerResult.timedOut =>
      { events := [NotifyEvent.failure (timeoutMsg timeout)], dir := removeName dir1 filename,
        caught := some (timeoutMsg timeout), killedProducer := true, killedConsumer := true }
  | ProducerResult.exited rc err =>
    if rc ≠ 0 then
      { events := [NotifyEvent.failure (rewriteError err)], dir := removeName dir1 filename,
        caught := some (rewriteError err), killedProducer := false, killedConsumer := false }
    else if env.gzipRc ≠ 0 then
      { events := [NotifyEvent.failure "Compression failed."], dir := removeName dir1 filename,
        caught := some "Compression failed.", killedProducer := false, killedConsumer := false }
    else
      match applyRetentionF env.unlinkFails policy db dir1 with
      | (dir2, none) =>
        { events := [NotifyEvent.success], dir := dir2, caught := none,
          killedProducer := false, killedConsumer := false }
      | (dir2, some e) =>
        { events := [NotifyEvent.success, NotifyEvent.failure e],
          dir := if dir2.any (fun f => f.name == filename) then removeName dir2 filename else dir2,
          caught := some e, killedProducer := false, killedConsumer := false }

/-- One server's trigger configuration: the optional `schedule` string
(`HH:MM`) and the optional `interval_hours` entry, mirroring key
presence in the YAML mapping. -/
structure ServerCfg where
  schedule : Option String
  intervalHours : Option Nat
deriving DecidableEq

/-- `datetime.strptime(s, "%H:%M").time()`: one or two digits for the
hour (0-23), a colon, one or two digits for the minute (0-59), nothing
else; the result as minutes into the day. `none` models the caught
`ValueError`. -/
def parseHM (s : String) : Option Nat :=
  match splitOnChar ':' s.toList with
  | [hs, ms] =>
    if 0 < hs.length ∧ hs.length ≤ 2 ∧ 0 < ms.length ∧ ms.length ≤ 2 then
      match parseNatDigits hs, parseNatDigits ms with
      | some h, some m => if h < 24 ∧ m < 60 then some (h * 60 + m) else none
      | _, _ => none
    else none
  | _ => none

/-- Instants are minutes since an epoch; a calendar day is 1440 of them. -/
def dayOf (t : Nat) : Nat := t / 1440

/-- `datetime.combine(now.date(), sched_time)`: the trigger instant on
the day containing `now`. -/
def triggerInstant (now schedMin : Nat) : Nat := dayOf now * 1440 + schedMin

/-- The per-unit due test of the daemon loop (lines 439-454):
`schedule` present wins over `interval_hours` (the `elif`), a malformed
schedule string only prints an error, and the interval branch compares
`now - last_run` against the interval. -/
def shouldRunUnit (srv : ServerCfg) (now : Nat) (lastRun : Option Nat) : Bool :=
  match srv.schedule with
  | some s =>
    match parseHM s with
    | some tm =>
      if triggerInstant now tm ≤ now then
        match lastRun with
        | none => true
        | some lr => decide (lr < triggerInstant now tm)
      else false
    | none => false
  | none =>
    match srv.intervalHours with
    | some h =>
      match lastRun with
      | none => true
      | some lr => decide (h * 60 ≤ now - lr)
    | none => false

/-- One poll tick for one key: whether it fired, and the `last_run`
entry afterwards (`last_run[key] = now` exactly when dispatched). -/
def tickStep (srv : ServerCfg) (lastRun : Option Nat) (now : Nat) : Bool × Option Nat :=
  if shouldRunUnit srv now lastRun then (true, some now) else (false, lastRun)

/-- Number of dispatches over a sequence of poll ticks. -/
def fireCount (srv : ServerCfg) : Option Nat → List Nat → Nat
  | _, [] => 0
  | lr, t :: ts =>
    match tickStep srv lr t with
    | (true, lr2) => 1 + fireCount srv lr2 ts
    | (false, lr2) => fireCount srv lr2 ts

/-- One daemon-loop iteration for one key (lines 456-467): when due,
run the dump pipeline and then unconditionally record
`last_run[key] = now`; the dump's outcome is not consulted. -/
def daemonStepUnit (env : DumpEnv) (srv : ServerCfg) (timeout : Nat) (policy : RetentionPolicy) (db date : String) (dir : List FileInfo) (lastRun : Option Nat) (now : Nat) : List FileInfo × Option Nat :=
  if shouldRunUnit srv now lastRun then
    ((runBackup env timeout policy db date dir).dir, some now)
  else (dir, lastRun)

/-- Concrete host directory with three artifacts of one database (sizes
5, newest last by mtime), used by the corrected claims. -/
def exDir3 : List FileInfo :=
  [⟨"db-16-01-2026-1.sql.gz", 10, 5⟩, ⟨"db-17-01-2026-1.sql.gz", 20, 5⟩,
   ⟨"db-18-01-2026-1.sql.gz", 30, 5⟩]

/-- Deletion-failure oracle: `unlink` raises on the middle artifact. -/
def c5fails (n : String) : Bool := n == "db-17-01-2026-1.sql.gz"

/-- Host directory holding two prior artifacts of `db`; the dump run of
18-01-2026 adds a third. -/
def c12dir : List FileInfo :=
  [⟨"db-17-01-2026-1.sql.gz", 10, 5⟩, ⟨"db-17-01-2026-2.sql.gz", 20, 5⟩]

/-- Pipeline oracle for the retention-failure scenario: producer and
compressor both succeed, but deleting the oldest prior artifact raises
(e.g. a permission error). -/
def c12env : DumpEnv :=
  { producer := ProducerResult.exited 0 "", gzipRc := 0, newMtime := 30, newSize := 5,
    unlinkFails := fun n => n == "db-17-01-2026-1.sql.gz" }

/-- Pipeline oracle for a producer that never exits within the timeout. -/
def c6env : DumpEnv :=
  { producer := ProducerResult.timedOut, gzipRc := 0, newMtime := 30, newSize := 5,
    unlinkFails := fun _ => false }

theorem nat_max?_mem {l : List Nat} {a : Nat} (h : l.max? = some a) : a ∈ l :=
  List.max?_mem (fun x y => max_choice x y) h

theorem nat_le_of_mem_max? {l : List Nat} {a : Nat} (h : l.max? = some a) :
    ∀ b ∈ l, b ≤ a :=
  ((List.max?_le_iff (fun _ _ _ => Nat.max_le) h).mp (Nat.le_refl a))

/-- Claim C7: the sequencer returns `max(parsed trailing integers) + 1`
over the files matching `<db>-<date>-*.sql.gz`, and `1` when no file
matches or none parses; malformed trailing segments are ignored (they
simply contribute nothing), not fatal. -/
theorem C7_sequencer_next (names : List String) (db date : String) :
    (parsedNums names db date = [] → nextSeq names db date = 1) ∧
    (∀ m ∈ parsedNums names db date, m < nextSeq names db date) ∧
    (parsedNums names db date ≠ [] →
      nextSeq names db date - 1 ∈ parsedNums names db date) := by
  unfold nextSeq parsedNums
  set existing := names.filter (seqGlobMatch db date) with hex
  by_cases he : existing.isEmpty
  · have : existing = [] := List.isEmpty_iff.mp he
    simp [he, this]
  · simp only [he, if_false]
    set nums := existing.filterMap parseTrailing with hnums
    cases hmax : nums.max? with
    | none =>
      have : nums = [] := List.max?_eq_none_iff.mp hmax
      simp [this]
    | some m =>
      have hmem : m ∈ nums := nat_max?_mem hmax
      have hle := nat_le_of_mem_max? hmax
      refine ⟨fun hnil => absurd hnil (by simpa using List.ne_nil_of_mem hmem), ?_, ?_⟩
      · exact fun b hb => Nat.lt_succ_of_le (hle b hb)
      · intro _
        simpa using hmem

/-- Witness for C7 at the spec's example: with sequence numbers 1 and 2
present (and one malformed name ignored), the next sequence is 3, and
`3 - 1 = 2` is among the parsed numbers. -/
theorem C7_sequencer_next_witness :
    nextSeq ["db-18-01-2026-1.sql.gz", "db-18-01-2026-2.sql.gz",
      "db-18-01-2026-x.sql.gz"] "db" "18-01-2026" - 1 ∈
      parsedNums ["db-18-01-2026-1.sql.gz", "db-18-01-2026-2.sql.gz",
        "db-18-01-2026-x.sql.gz"] "db" "18-01-2026" :=
  (C7_sequencer_next ["db-18-01-2026-1.sql.gz", "db-18-01-2026-2.sql.gz",
    "db-18-01-2026-x.sql.gz"] "db" "18-01-2026").2.2 (by decide)

theorem removeNames_nil (dir : List FileInfo) : removeNames dir [] = dir := by
  simp [removeNames]

theorem removeNames_cons (dir : List FileInfo) (m : String) (ns : List String) :
    removeNames (removeName dir m) ns = removeNames dir (m :: ns) := by
  unfold removeNames removeName
  rw [List.filter_filter]
  refine List.filter_congr (fun f _ => ?_)
  by_cases h : f.name = m <;>
    simp [List.contains_cons, Bool.not_or, Bool.and_comm, h]

theorem matchingBackups_removeName (dir : List FileInfo) (db n : String) :
    matchingBackups (removeName dir n) db = removeName (matchingBackups dir db) n := by
  unfold matchingBackups removeName
  rw [List.filter_filter, List.filter_filter]
  exact List.filter_congr (fun f _ => Bool.and_comm _ _)

theorem matchingBackups_removeNames (dir : List FileInfo) (db : String) (ns : List String) :
    matchingBackups (removeNames dir ns) db = removeNames (matchingBackups dir db) ns := by
  unfold matchingBackups removeNames
  rw [List.filter_filter, List.filter_filter]
  exact List.filter_congr (fun f _ => Bool.and_comm _ _)

theorem nodupNames_filter (dir : List FileInfo) (q : FileInfo → Bool)
    (h : (dir.map (fun f => f.name)).Nodup) :
    ((dir.filter q).map (fun f => f.name)).Nodup :=
  h.sublist ((dir.filter_sublist).map _)

theorem sortDesc_perm (l : List FileInfo) : List.Perm (sortDesc l) l :=
  List.perm_insertionSort newerEq l

theorem sortDesc_sorted (l : List FileInfo) : (sortDesc l).Pairwise newerEq :=
  List.sorted_insertionSort newerEq l

theorem deleteSeq_ok (fails : String → Bool) :
    ∀ (ns : List String) (dir : List FileInfo), (∀ m ∈ ns, fails m = false) →
      deleteSeq fails dir ns = (removeNames dir ns, none)
  | [], dir, _ => by rw [removeNames_nil]; rfl
  | n :: ns, dir, h => by
    have hn : fails n = false := h n (List.mem_cons_self n ns)
    have ih := deleteSeq_ok fails ns (removeName dir n)
      (fun m hm => h m (List.mem_cons_of_mem _ hm))
    simp only [deleteSeq, hn, Bool.false_eq_true, if_false, ih, removeNames_cons]

theorem deleteSeq_abort (fails : String → Bool) :
    ∀ (ns1 : List String) (n : String) (ns2 : List String) (dir : List FileInfo),
      (∀ m ∈ ns1, fails m = false) → fails n = true →
      deleteSeq fails dir (ns1 ++ n :: ns2) =
        (removeNames dir ns1, some ("unlink failed: " ++ n))
  | [], n, ns2, dir, _, hn => by
    simp only [List.nil_append, deleteSeq, hn, if_true, removeNames_nil]
  | m :: ns1, n, ns2, dir, h, hn => by
    have hm : fails m = false := h m (List.mem_cons_self m ns1)
    have ih := deleteSeq_abort fails ns1 n ns2 (removeName dir m)
      (fun x hx => h x (List.mem_cons_of_mem _ hx)) hn
    simp only [List.cons_append, deleteSeq, hm, Bool.false_eq_true, if_false, List.append_eq]
    rw [ih, removeNames_cons]

theorem sizeLoopRev_stop (fails : String → Bool) (maxB : Nat) (rev : List FileInfo)
    (total : Nat) (dir : List FileInfo) (h : total ≤ maxB) :
    sizeLoopRev fails maxB rev total dir = (dir, none) := by
  cases rev with
  | nil => rfl
  | cons f rest => simp only [sizeLoopRev, if_pos h]

theorem sumSizes_perm {l1 l2 : List FileInfo} (h : List.Perm l1 l2) :
    sumSizes l1 = sumSizes l2 := by
  unfold sumSizes
  exact (h.map _).sum_eq

theorem countPhase_perm (dir : List FileInfo) (db : String) (k : Nat)
    (hnd : (dir.map (fun f => f.name)).Nodup) :
    List.Perm (matchingBackups (removeNames dir (doomedNames dir db k)) db)
      ((sortDesc (matchingBackups dir db)).take k) := by
  rw [matchingBackups_removeNames]
  have hMB : List.Perm (matchingBackups dir db) (sortDesc (matchingBackups dir db)) :=
    (sortDesc_perm _).symm
  have h1 : List.Perm (removeNames (matchingBackups dir db) (doomedNames dir db k))
      (removeNames (sortDesc (matchingBackups dir db)) (doomedNames dir db k)) :=
    hMB.filter _
  have hnodM : ((matchingBackups dir db).map (fun f => f.name)).Nodup :=
    nodupNames_filter dir _ hnd
  have hnodB : ((sortDesc (matchingBackups dir db)).map (fun f => f.name)).Nodup :=
    ((hMB.map _).nodup_iff).mp hnodM
  set B := sortDesc (matchingBackups dir db) with hB
  have hsplit : B = B.take k ++ B.drop k := (List.take_append_drop k B).symm
  have hdisj : ∀ a, a ∈ (B.take k).map (fun f => f.name) →
      a ∈ (B.drop k).map (fun f => f.name) → False := by
    rw [hsplit, List.map_append] at hnodB
    exact fun a h1 h2 => (List.nodup_append.mp hnodB).2.2 h1 h2
  have h2 : removeNames B (doomedNames dir db k) = B.take k := by
    conv_lhs => rw [removeNames, hsplit, List.filter_append]
    have hnil : List.filter (fun f => !((doomedNames dir db k).contains f.name)) (B.drop k) = [] := by
      refine List.filter_eq_nil_iff.mpr (fun g hg => ?_)
      have : g.name ∈ doomedNames dir db k := List.mem_map_of_mem _ hg
      simp [this]
    have hall : List.filter (fun f => !((doomedNames dir db k).contains f.name)) (B.take k) = B.take k := by
      refine List.filter_eq_self.mpr (fun f hf => ?_)
      have : f.name ∉ doomedNames dir db k := by
        intro hmem
        exact hdisj f.name (List.mem_map_of_mem _ hf) hmem
      simp [this]
    rw [hnil, hall, List.append_nil]
  exact h1.trans (by rw [h2])

theorem sizeLoopRev_bound (db : String) (maxB : Nat) :
    ∀ (rev : List FileInfo) (total : Nat) (dir : List FileInfo),
      (dir.map (fun f => f.name)).Nodup →
      List.Perm (matchingBackups dir db) rev →
      total = sumSizes rev →
      sumSizes (matchingBackups (sizeLoopRev (fun _ => false) maxB rev total dir).1 db) ≤ maxB ∨
        matchingBackups (sizeLoopRev (fun _ => false) maxB rev total dir).1 db = []
  | [], total, dir, _, hperm, _ => by
    right
    simpa [sizeLoopRev] using hperm.eq_nil
  | f :: rest, total, dir, hnd, hperm, htot => by
    by_cases hle : total ≤ maxB
    · left
      rw [sizeLoopRev_stop _ _ _ _ _ hle]
      dsimp only
      have := sumSizes_perm hperm
      omega
    · have hstep : sizeLoopRev (fun _ => false) maxB (f :: rest) total dir
          = sizeLoopRev (fun _ => false) maxB rest (total - f.size) (removeName dir f.name) := by
        simp [sizeLoopRev, hle]
      rw [hstep]
      have hnodM : ((matchingBackups dir db).map (fun g => g.name)).Nodup :=
        nodupNames_filter dir _ hnd
      have hnodfr : ((f :: rest).map (fun g => g.name)).Nodup :=
        ((hperm.map _).nodup_iff).mp hnodM
      have hrestname : ∀ g ∈ rest, ¬(g.name = f.name) := by
        intro g hg hgn
        have : f.name ∈ rest.map (fun x => x.name) := by
          rw [← hgn]
          exact List.mem_map_of_mem _ hg
        exact (List.nodup_cons.mp hnodfr).1 this
      have hperm2 : List.Perm (matchingBackups (removeName dir f.name) db) rest := by
        rw [matchingBackups_removeName, removeName]
        have hstep2 : List.filter (fun g => !(g.name == f.name)) (f :: rest) = rest := by
          rw [List.filter_cons_of_neg (by simp)]
          exact List.filter_eq_self.mpr (fun g hg => by simp [hrestname g hg])
        exact (hperm.filter _).trans (by rw [hstep2])
      have htot2 : total - f.size = sumSizes rest := by
        have : sumSizes (f :: rest) = f.size + sumSizes rest := by
          simp [sumSizes]
        omega
      exact sizeLoopRev_bound db maxB rest (total - f.size) (removeName dir f.name)
        (nodupNames_filter dir _ hnd) hperm2 htot2

/-- Claim C3: for every set of pre-existing artifacts (a directory with
distinct file names) and every policy, after `apply_retention` completes
the total size of the remaining artifacts matching the database's
date-qualified pattern is at most `policy.max_total_bytes`, or no such
artifact remains. -/
theorem C3_retention_size_bound (dir : List FileInfo) (db : String) (p : RetentionPolicy)
    (hnd : (dir.map (fun f => f.name)).Nodup) :
    sumSizes (matchingBackups (applyRetention p db dir) db) ≤ p.maxBytes ∨
      matchingBackups (applyRetention p db dir) db = [] := by
  have hkey : applyRetention p db dir =
      (sizeLoopRev (fun _ => false) p.maxBytes
        (sortDesc (matchingBackups (removeNames dir (doomedNames dir db p.keepLast)) db)).reverse
        (sumSizes (sortDesc (matchingBackups (removeNames dir (doomedNames dir db p.keepLast)) db)))
        (removeNames dir (doomedNames dir db p.keepLast))).1 := by
    unfold applyRetention applyRetentionF
    rw [deleteSeq_ok (fun _ => false) (doomedNames dir db p.keepLast) dir (fun _ _ => rfl)]
  rw [hkey]
  refine sizeLoopRev_bound db p.maxBytes _ _ _ ?_ ?_ ?_
  · exact nodupNames_filter dir _ hnd
  · exact ((sortDesc_perm _).symm.trans (List.reverse_perm _).symm)
  · exact (sumSizes_perm (List.reverse_perm _)).symm

/-- Witness for C3 at a concrete three-artifact directory. -/
theorem C3_retention_size_bound_witness :
    sumSizes (matchingBackups (applyRetention ⟨1, 3⟩ "db" exDir3) "db") ≤ 3 ∨
      matchingBackups (applyRetention ⟨1, 3⟩ "db" exDir3) "db" = [] :=
  C3_retention_size_bound exDir3 "db" ⟨1, 3⟩ (by decide)

/-- Counterexample to claim C4 as stated: `apply_retention` does not
always leave `min(k, N)` artifacts, because the size rule runs after the
count rule and can delete more. With three artifacts of size 5,
`keep_last = 2` and a zero byte budget, zero artifacts remain instead of
`min 2 3 = 2`. -/
theorem C4_counterexample :
    ¬((matchingBackups (applyRetention ⟨2, 0⟩ "db" exDir3) "db").length =
      min 2 (matchingBackups exDir3 "db").length) := by decide

/-- Claim C4 (amended): when additionally the `k` newest artifacts
together fit in the byte budget — so the size rule, which runs next,
deletes nothing — `apply_retention` leaves exactly `min(k, N)` matching
artifacts, and they are the newest: every survivor's mtime is at least
every deleted artifact's mtime. -/
theorem C4_keep_last_leaves_k_newest (dir : List FileInfo) (db : String) (p : RetentionPolicy)
    (hnd : (dir.map (fun f => f.name)).Nodup)
    (_hk : p.keepLast < (matchingBackups dir db).length)
    (hsz : sumSizes ((sortDesc (matchingBackups dir db)).take p.keepLast) ≤ p.maxBytes) :
    (matchingBackups (applyRetention p db dir) db).length =
      min p.keepLast (matchingBackups dir db).length ∧
    ∀ f ∈ matchingBackups (applyRetention p db dir) db,
      ∀ g ∈ matchingBackups dir db, g ∉ matchingBackups (applyRetention p db dir) db →
        g.mtime ≤ f.mtime := by
  have hcount := countPhase_perm dir db p.keepLast hnd
  have htot : sumSizes (sortDesc (matchingBackups
      (removeNames dir (doomedNames dir db p.keepLast)) db)) ≤ p.maxBytes := by
    have h1 := sumSizes_perm (sortDesc_perm (matchingBackups
      (removeNames dir (doomedNames dir db p.keepLast)) db))
    have h2 := sumSizes_perm hcount
    omega
  have hkey : applyRetention p db dir = removeNames dir (doomedNames dir db p.keepLast) := by
    unfold applyRetention applyRetentionF
    rw [deleteSeq_ok (fun _ => false) (doomedNames dir db p.keepLast) dir (fun _ _ => rfl)]
    show (sizeLoopRev _ _ _ _ _).1 = _
    rw [sizeLoopRev_stop _ _ _ _ _ htot]
  rw [hkey]
  constructor
  · rw [hcount.length_eq, List.length_take,
      (sortDesc_perm (matchingBackups dir db)).length_eq]
  · intro f hf g hg hgnot
    have hfB : f ∈ (sortDesc (matchingBackups dir db)).take p.keepLast := hcount.mem_iff.mp hf
    have hgB : g ∈ sortDesc (matchingBackups dir db) :=
      ((sortDesc_perm _).mem_iff).mpr hg
    rw [← List.take_append_drop p.keepLast (sortDesc (matchingBackups dir db))] at hgB
    cases List.mem_append.mp hgB with
    | inl h => exact absurd (hcount.mem_iff.mpr h) hgnot
    | inr h =>
      have hpw := sortDesc_sorted (matchingBackups dir db)
      rw [← List.take_append_drop p.keepLast (sortDesc (matchingBackups dir db))] at hpw
      exact (List.pairwise_append.mp hpw).2.2 f hfB g h

/-- Witness for the amended C4: three artifacts, `keep_last = 1`, ample
byte budget; exactly the newest survives. -/
theorem C4_keep_last_leaves_k_newest_witness :
    (matchingBackups (applyRetention ⟨1, 1000⟩ "db" exDir3) "db").length =
      min 1 (matchingBackups exDir3 "db").length ∧
    ∀ f ∈ matchingBackups (applyRetention ⟨1, 1000⟩ "db" exDir3) "db",
      ∀ g ∈ matchingBackups exDir3 "db",
        g ∉ matchingBackups (applyRetention ⟨1, 1000⟩ "db" exDir3) "db" →
        g.mtime ≤ f.mtime :=
  C4_keep_last_leaves_k_newest exDir3 "db" ⟨1, 1000⟩ (by decide) (by decide) (by decide)

/-- Counterexample to claim C5 as stated: a deletion failure does not
let the pass continue. With `keep_last = 1`, both older artifacts are
deletion candidates; `unlink` fails on the first (newer) one, and the
second candidate — which the claim says would still be processed — is
left in place while the pass aborts with the exception. -/
theorem C5_counterexample :
    "db-16-01-2026-1.sql.gz" ∈ doomedNames exDir3 "db" 1 ∧
    (applyRetentionF c5fails ⟨1, 1000⟩ "db" exDir3).2.isSome = true ∧
    (⟨"db-16-01-2026-1.sql.gz", 10, 5⟩ : FileInfo) ∈
      (applyRetentionF c5fails ⟨1, 1000⟩ "db" exDir3).1 := by decide

/-- Claim C5 (amended): a deletion failure aborts the pruning pass
instead of being skipped. In the count phase, the pass stops at the
first candidate whose `unlink` raises: the candidates before it are
deleted, it and every later candidate survive, and the exception
propagates to the caller. In the size phase, a failing `unlink`
likewise ends the pass with no further deletions. -/
theorem C5_deletion_failure_aborts :
    (∀ (dir : List FileInfo) (db : String) (p : RetentionPolicy) (fails : String → Bool)
        (ns1 : List String) (n : String) (ns2 : List String),
      doomedNames dir db p.keepLast = ns1 ++ n :: ns2 →
      (∀ m ∈ ns1, fails m = false) → fails n = true →
      applyRetentionF fails p db dir = (removeNames dir ns1, some ("unlink failed: " ++ n))) ∧
    (∀ (fails : String → Bool) (maxB : Nat) (f : FileInfo) (rest : List FileInfo)
        (total : Nat) (dir : List FileInfo),
      maxB < total → fails f.name = true →
      sizeLoopRev fails maxB (f :: rest) total dir =
        (dir, some ("unlink failed: " ++ f.name))) := by
  constructor
  · intro dir db p fails ns1 n ns2 hsplit h1 hn
    unfold applyRetentionF
    rw [hsplit, deleteSeq_abort fails ns1 n ns2 dir h1 hn]
  · intro fails maxB f rest total dir hlt hf
    simp only [sizeLoopRev, if_neg (by omega : ¬ total ≤ maxB), hf, if_true]

/-- Witness for the amended C5 at the concrete scenario of the
counterexample: the pass aborts before deleting anything. -/
theorem C5_deletion_failure_aborts_witness :
    applyRetentionF c5fails ⟨1, 1000⟩ "db" exDir3 =
      (removeNames exDir3 [], some "unlink failed: db-17-01-2026-1.sql.gz") :=
  C5_deletion_failure_aborts.1 exDir3 "db" ⟨1, 1000⟩ c5fails []
    "db-17-01-2026-1.sql.gz" ["db-16-01-2026-1.sql.gz"] (by decide) (by decide) (by decide)

/-- Claim C6: when the producer does not exit within the timeout,
`run_backup` kills both the producer and the consumer, fails with the
timeout error (one failure notification, the timeout text caught by the
handler), and the partial destination file does not exist afterwards. -/
theorem C6_timeout_kills_both_and_removes_file (env : DumpEnv) (timeout : Nat)
    (p : RetentionPolicy) (db date : String) (dir : List FileInfo)
    (h : env.producer = ProducerResult.timedOut) :
    (runBackup env timeout p db date dir).events = [NotifyEvent.failure (timeoutMsg timeout)] ∧
    (runBackup env timeout p db date dir).caught = some (timeoutMsg timeout) ∧
    (runBackup env timeout p db date dir).killedProducer = true ∧
    (runBackup env timeout p db date dir).killedConsumer = true ∧
    ∀ f ∈ (runBackup env timeout p db date dir).dir, f.name ≠ backupFilename dir db date := by
  unfold runBackup
  rw [h]
  refine ⟨rfl, rfl, rfl, rfl, ?_⟩
  intro f hf
  simp only [removeName, List.mem_filter] at hf
  simpa using hf.2

/-- Witness for C6: a concrete timed-out run over a two-artifact
directory. -/
theorem C6_timeout_witness :
    (runBackup c6env 3600 ⟨10, 1000⟩ "db" "18-01-2026" c12dir).events =
      [NotifyEvent.failure (timeoutMsg 3600)] ∧
    (runBackup c6env 3600 ⟨10, 1000⟩ "db" "18-01-2026" c12dir).caught =
      some (timeoutMsg 3600) ∧
    (runBackup c6env 3600 ⟨10, 1000⟩ "db" "18-01-2026" c12dir).killedProducer = true ∧
    (runBackup c6env 3600 ⟨10, 1000⟩ "db" "18-01-2026" c12dir).killedConsumer = true ∧
    ∀ f ∈ (runBackup c6env 3600 ⟨10, 1000⟩ "db" "18-01-2026" c12dir).dir,
      f.name ≠ backupFilename c12dir "db" "18-01-2026" :=
  C6_timeout_kills_both_and_removes_file c6env 3600 ⟨10, 1000⟩ "db" "18-01-2026" c12dir rfl

/-- Claim C1, evaluated at the failing input: when the dump and the
compression both succeed but a retention deletion then raises inside the
same `try`, `run_backup` emits TWO notification events — the success
notification (sent before `apply_retention`) and then the failure
notification from the shared `except` handler — contradicting the
exactly-one-event contract. -/
theorem C1_two_notifications_on_retention_error :
    (runBackup c12env 3600 ⟨2, 1000⟩ "db" "18-01-2026" c12dir).events =
      [NotifyEvent.success,
       NotifyEvent.failure "unlink failed: db-17-01-2026-1.sql.gz"] := by decide

/-- Claim C2, evaluated at the failing input: producer and compressor
both exit successfully, yet the retention failure lands in `run_backup`'s
`except` handler, which reports the run as failed and deletes the
newly created artifact. -/
theorem C2_retention_error_destroys_artifact :
    c12env.producer = ProducerResult.exited 0 "" ∧ c12env.gzipRc = 0 ∧
    (runBackup c12env 3600 ⟨2, 1000⟩ "db" "18-01-2026" c12dir).caught =
      some "unlink failed: db-17-01-2026-1.sql.gz" ∧
    ((runBackup c12env 3600 ⟨2, 1000⟩ "db" "18-01-2026" c12dir).dir.all
      (fun f => !(f.name == backupFilename c12dir "db" "18-01-2026"))) = true := by decide

/-- Claim C9: whenever the daemon dispatches a unit on a tick,
`last_run` for that key is set to the tick's `now`, for every possible
dump outcome (the pipeline environment is universally quantified, so a
failing dump records `last_run` exactly like a successful one). -/
theorem C9_lastrun_recorded_even_on_failure (env : DumpEnv) (srv : ServerCfg) (timeout : Nat)
    (p : RetentionPolicy) (db date : String) (dir : List FileInfo) (lr : Option Nat) (now : Nat)
    (h : shouldRunUnit srv now lr = true) :
    (daemonStepUnit env srv timeout p db date dir lr now).2 = some now := by
  simp [daemonStepUnit, h]

/-- Witness for C9: a due unit whose dispatched dump times out (fails)
still gets `last_run = now`. -/
theorem C9_lastrun_witness :
    (daemonStepUnit c6env ⟨some "02:00", none⟩ 3600 ⟨10, 1000⟩ "db" "18-01-2026" c12dir
      none 125).2 = some 125 :=
  C9_lastrun_recorded_even_on_failure c6env ⟨some "02:00", none⟩ 3600 ⟨10, 1000⟩ "db"
    "18-01-2026" c12dir none 125 (by decide)

theorem shouldRunUnit_fixed (srv : ServerCfg) (s : String)
    (hs : srv.schedule = some s) (now : Nat) (lr : Option Nat) :
    shouldRunUnit srv now lr =
      (match parseHM s with
       | some tm =>
         if triggerInstant now tm ≤ now then
           match lr with
           | none => true
           | some v => decide (v < triggerInstant now tm)
         else false
       | none => false) := by
  unfold shouldRunUnit
  rw [hs]

theorem shouldRunUnit_fixed_parsed (srv : ServerCfg) (s : String) (tm : Nat)
    (hs : srv.schedule = some s) (hp : parseHM s = some tm) (now : Nat) (lr : Option Nat) :
    shouldRunUnit srv now lr =
      if triggerInstant now tm ≤ now then
        match lr with
        | none => true
        | some v => decide (v < triggerInstant now tm)
      else false := by
  rw [shouldRunUnit_fixed srv s hs, hp]

theorem fireCount_zero_after (srv : ServerCfg) (s : String) (tm : Nat)
    (hs : srv.schedule = some s) (hp : parseHM s = some tm) :
    ∀ (ticks : List Nat) (d v : Nat), (∀ t ∈ ticks, dayOf t = d) →
      d * 1440 + tm ≤ v → fireCount srv (some v) ticks = 0
  | [], _, _, _, _ => rfl
  | t :: ts, d, v, hd, hv => by
    have hdt : dayOf t = d := hd t (List.mem_cons_self _ _)
    have hnot : shouldRunUnit srv t (some v) = false := by
      rw [shouldRunUnit_fixed_parsed srv s tm hs hp]
      unfold triggerInstant
      rw [hdt]
      by_cases hle : d * 1440 + tm ≤ t
      · rw [if_pos hle]
        show decide (v < d * 1440 + tm) = false
        exact decide_eq_false (by omega)
      · rw [if_neg hle]
    have hred : fireCount srv (some v) (t :: ts) = fireCount srv (some v) ts := by
      simp [fireCount, tickStep, hnot]
    rw [hred]
    exact fireCount_zero_after srv s tm hs hp ts d v
      (fun x hx => hd x (List.mem_cons_of_mem _ hx)) hv

theorem fireCount_le_one (srv : ServerCfg) (s : String) (tm : Nat)
    (hs : srv.schedule = some s) (hp : parseHM s = some tm) :
    ∀ (ticks : List Nat) (d : Nat) (lr0 : Option Nat), (∀ t ∈ ticks, dayOf t = d) →
      fireCount srv lr0 ticks ≤ 1
  | [], _, _, _ => by simp [fireCount]
  | t :: ts, d, lr0, hd => by
    have hdt : dayOf t = d := hd t (List.mem_cons_self _ _)
    have hts : ∀ x ∈ ts, dayOf x = d := fun x hx => hd x (List.mem_cons_of_mem _ hx)
    cases hfire : shouldRunUnit srv t lr0 with
    | false =>
      have hred : fireCount srv lr0 (t :: ts) = fireCount srv lr0 ts := by
        simp [fireCount, tickStep, hfire]
      rw [hred]
      exact fireCount_le_one srv s tm hs hp ts d lr0 hts
    | true =>
      have htrig : d * 1440 + tm ≤ t := by
        rw [shouldRunUnit_fixed_parsed srv s tm hs hp] at hfire
        by_cases hle : triggerInstant t tm ≤ t
        · unfold triggerInstant at hle
          rw [hdt] at hle
          exact hle
        · rw [if_neg hle] at hfire
          exact absurd hfire (by simp)
      have hred : fireCount srv lr0 (t :: ts) = 1 + fireCount srv (some t) ts := by
        simp [fireCount, tickStep, hfire]
      rw [hred, fireCount_zero_after srv s tm hs hp ts d t hts htrig]

/-- Claim C8: under a well-formed `FixedTime(hh:mm)` schedule, a poll
tick marks the unit due exactly when `now` has reached today's trigger
instant and no recorded `last_run` is at or past that instant; as a
consequence, over any set of ticks falling on one calendar day — in any
order and at any granularity — the unit fires at most once. -/
theorem C8_fixed_time_semantics (srv : ServerCfg) (s : String) (tm : Nat)
    (hs : srv.schedule = some s) (hp : parseHM s = some tm) :
    (∀ (now : Nat) (lr : Option Nat),
      shouldRunUnit srv now lr = true ↔
        (triggerInstant now tm ≤ now ∧
          (lr = none ∨ ∃ v, lr = some v ∧ v < triggerInstant now tm))) ∧
    (∀ (lr0 : Option Nat) (d : Nat) (ticks : List Nat),
      (∀ t ∈ ticks, dayOf t = d) → fireCount srv lr0 ticks ≤ 1) := by
  constructor
  · intro now lr
    rw [shouldRunUnit_fixed_parsed srv s tm hs hp]
    cases lr with
    | none => by_cases hle : triggerInstant now tm ≤ now <;> simp [hle]
    | some v => by_cases hle : triggerInstant now tm ≤ now <;> simp [hle]
  · intro lr0 d ticks hd
    exact fireCount_le_one srv s tm hs hp ticks d lr0 hd

/-- Witness for C8 at the spec's example: `FixedTime("02:00")`, ticks at
02:05, 02:10 and 03:20 of day zero fire exactly once, hence at most
once. -/
theorem C8_fixed_time_witness :
    fireCount ⟨some "02:00", none⟩ none [125, 130, 200] ≤ 1 :=
  (C8_fixed_time_semantics ⟨some "02:00", none⟩ "02:00" 120 rfl (by decide)).2
    none 0 [125, 130, 200] (by decide)

/-- Claim C10: when a server configuration carries both a `schedule`
entry and an `interval_hours` entry, only the `schedule` rule is
evaluated — the due test does not depend on the interval at all — and a
malformed schedule string makes the unit never due, so it cannot fire
via the interval either. -/
theorem C10_schedule_shadows_interval (s : String) (h1 h2 : Option Nat) (now : Nat)
    (lr : Option Nat) :
    shouldRunUnit ⟨some s, h1⟩ now lr = shouldRunUnit ⟨some s, h2⟩ now lr ∧
    (parseHM s = none → shouldRunUnit ⟨some s, h1⟩ now lr = false) := by
  constructor
  · rfl
  · intro hp
    rw [shouldRunUnit_fixed ⟨some s, h1⟩ s rfl, hp]

/-- Witness for C10: a malformed schedule (`"late"`) with
`interval_hours = 6` present and a never-run unit stays non-due even
long after start. -/
theorem C10_schedule_shadows_witness :
    shouldRunUnit ⟨some "late", some 6⟩ 99999 none = false :=
  (C10_schedule_shadows_interval "late" (some 6) (some 0) 99999 none).2 (by decide)
